import Mathlib

/-!
Shallow embedding of the discipline-monitoring pipeline
(`src/app.py`, `src/modules/video_processor.py`).

The embedding mirrors, definition by definition:
  * `process_frame_for_detection` (app.py, lines 157-197): the
    detection-confirmation filter;
  * the per-frame body of the `process_video_file` loop (app.py, lines
    451-539) and of the `process_video_url` loop (app.py, lines 672-759),
    including the post-loop forced stop (lines 541-543 / 761-763);
  * `VideoProcessor.generate_segment_filename` and `setup_output_dirs`
    (video_processor.py, lines 26-36 and 67-70);
  * the deferred face-attribution pass (app.py, lines 546-587).

Python sets whose iteration order is observed by the program (the
`rec_violations` set is joined into a display string) are modelled as
duplicate-free lists in first-insertion order; all reads are either
order-insensitive (membership, union, emptiness) or go through an explicit
sort, except the one unsorted join in `process_video_url` line 745, which
in CPython iterates in hash order - likewise not sorted, so the modelled
order is an adequate stand-in for the property at issue.  Timestamps
(`time.time()` floats) are modelled as rationals; all traces below use
strictly positive times, where Python's float truthiness test
`if recording and last_detection_time:` agrees with an `Option.isSome`
test.
-/

/-- Model of Python `set.add` on the insertion-ordered list representation
of a set: append the element unless it is already present. -/
def insertClass (s : List String) (c : String) : List String :=
  if c ∈ s then s else s ++ [c]

/-- `process_frame_for_detection` (app.py, lines 157-197).  Takes the
current time, the detector's class map (modelled by its key list), the
sleep-timer state and the sleep debounce; returns
`(confirmed_violations, new_sleep_start_time, new_last_detection_time)`.
The sleep branch mirrors lines 175-189 (timer start on first sighting,
inclusive `>=` debounce check, reset to `None` on a frame without
"sleeping"); the fold mirrors the loop of lines 192-195 adding every
non-sleeping class unconditionally. -/
def process_frame_for_detection (current_time : ℚ) (detections : List String)
    (sleep_start_time : Option ℚ) (sleep_buffer : ℚ) :
    List String × Option ℚ × Option ℚ :=
  let newStart : Option ℚ :=
    if "sleeping" ∈ detections then some (sleep_start_time.getD current_time)
    else none
  let base : List String × Option ℚ :=
    if "sleeping" ∈ detections ∧
        current_time - sleep_start_time.getD current_time ≥ sleep_buffer then
      (["sleeping"], some current_time)
    else ([], none)
  let final := detections.foldl
    (fun acc c =>
      if c ≠ "sleeping" then (insertClass acc.1 c, some current_time) else acc)
    base
  (final.1, newStart, final.2)

/-- The confirmation filter applied to successive sampled frames, threading
`sleep_start_time` exactly as the stream loops do between sampled frames;
returns the per-frame confirmed sets. -/
def filterTrace (sleep_buffer : ℚ) : Option ℚ → List (ℚ × List String) → List (List String)
  | _, [] => []
  | s, (t, d) :: rest =>
      let r := process_frame_for_detection t d s sleep_buffer
      r.1 :: filterTrace sleep_buffer r.2.1 rest

/-- `rec_violations = set(confirmed_violations)` at segment open
(app.py, line 499 / line 315 / line 716). -/
def openRecViolations (confirmed : List String) : List String :=
  confirmed.foldl insertClass []

/-- `rec_violations.update(confirmed_violations)` while recording
(app.py, line 502 / line 318 / line 720). -/
def updateRecViolations (rec confirmed : List String) : List String :=
  confirmed.foldl insertClass rec

/-- Python `sorted` on a list of strings (lexicographic order). -/
def sortStrings (l : List String) : List String :=
  List.insertionSort (· ≤ ·) l

/-- `", ".join(sorted(rec_violations))`, the rendering used at segment
close by `process_video_file` (app.py, line 527) and `process_webcam`
(line 346). -/
def join_sorted (rec : List String) : String :=
  String.intercalate ", " (sortStrings rec)

/-- `", ".join(rec_violations)`, the rendering used at segment close by
`process_video_url` (app.py, line 745): the set is joined in iteration
order, with no sort applied. -/
def join_unsorted (rec : List String) : String :=
  String.intercalate ", " rec

/-- Two-digit zero-padded decimal field, as produced by `strftime` for
`%H`, `%M` and `%S`. -/
def fmt2 (n : Nat) : String :=
  String.mk [Nat.digitChar (n / 10), Nat.digitChar (n % 10)]

/-- `VideoProcessor.generate_segment_filename` (video_processor.py, lines
67-70): `seg_{HH-MM-SS}.mp4` from the wall-clock time of day, at second
resolution, with no disambiguator. -/
def generate_segment_filename (h m s : Nat) : String :=
  "seg_" ++ fmt2 h ++ "-" ++ fmt2 m ++ "-" ++ fmt2 s ++ ".mp4"

/-- The date-scoped segment directory chosen by
`VideoProcessor.setup_output_dirs` (video_processor.py, lines 26-36). -/
def segments_dir (date : String) : String :=
  "monitor_output/segments/" ++ date

/-- `datetime.now().strftime("%H:%M:%S")`, the display timestamp stored in
a ledger entry. -/
def fmtClock (h m s : Nat) : String :=
  fmt2 h ++ ":" ++ fmt2 m ++ ":" ++ fmt2 s

/-- The sentinel marking a ledger entry whose identity is still pending
(`'Обработка...'` in app.py). -/
def pendingLabel : String := "Обработка..."

/-- One entry of `st.session_state.violations_log`: the dict appended at
segment close (app.py, lines 524-530 / 343-349 / 742-748). -/
structure Violation where
  path : String
  time : String
  violation : String
  student : String
  confidence : String
deriving DecidableEq, Repr

/-- Run-scoped configuration read from the sidebar sliders: frame-sample
skip factor, recording trailing buffer, sleep debounce. -/
structure Config where
  frame_skip : Nat
  buffer_seconds : ℚ
  sleep_buffer : ℚ
deriving DecidableEq, Repr

/-- One frame read from the source: the `time.time()` value observed in
the loop body, the detector's class keys for the frame, and the
`datetime.now()` wall clock (time of day and date) at that instant. -/
structure FrameInput where
  time : ℚ
  detections : List String
  wall_h : Nat
  wall_m : Nat
  wall_s : Nat
  wall_date : String
deriving DecidableEq, Repr

/-- The loop-local mutable state of `process_video_file` /
`process_video_url` (app.py, lines 433-444 / 652-660), plus
`writer_open`, which mirrors `VideoProcessor.writer` being non-`None`
(start_recording sets it, stop_recording releases it).
`current_segment_path` is initialised to `None` in Python; it is modelled
by `""`, which is never a generated path. -/
structure LoopState where
  frame_count : Nat
  sleep_start_time : Option ℚ
  last_detection_time : Option ℚ
  recording : Bool
  writer_open : Bool
  rec_violations : List String
  current_segment_path : String
  last_detections : List String
  last_confirmed_violations : List String
  violations_log : List Violation
deriving DecidableEq, Repr

/-- Initial loop state (app.py, lines 433-444). -/
def initState : LoopState where
  frame_count := 0
  sleep_start_time := none
  last_detection_time := none
  recording := false
  writer_open := false
  rec_violations := []
  current_segment_path := ""
  last_detections := []
  last_confirmed_violations := []
  violations_log := []

/-- `os.path.join(segments_dir, generate_segment_filename())` at segment
open (app.py, lines 489-491). -/
def mkSegmentPath (inp : FrameInput) : String :=
  segments_dir inp.wall_date ++ "/" ++
    generate_segment_filename inp.wall_h inp.wall_m inp.wall_s

/-- One iteration of the `process_video_file` frame loop (app.py, lines
451-539): sampled-frame detection and confirmation (lines 463-483),
recording open/extend (lines 486-502), close check with ledger append
(lines 517-531).  The frame-write and drawing side effects carry no
state beyond `writer_open`.  `if recording and last_detection_time:` is
modelled as an `Option` match (times in all traces are positive, where
Python float truthiness agrees). -/
def videoFileStep (cfg : Config) (s : LoopState) (inp : FrameInput) : LoopState :=
  let frame_count := s.frame_count + 1
  let current_time := inp.time
  let sampled := frame_count % cfg.frame_skip = 0
  let det := process_frame_for_detection current_time inp.detections
    s.sleep_start_time cfg.sleep_buffer
  let confirmed : List String := if sampled then det.1 else []
  let sleep_start_time := if sampled then det.2.1 else s.sleep_start_time
  let last_detection_time :=
    if sampled ∧ det.1 ≠ [] ∧ det.2.2 ≠ none then det.2.2
    else s.last_detection_time
  let last_detections := if sampled then inp.detections else s.last_detections
  let last_confirmed := if sampled then det.1 else s.last_confirmed_violations
  let opened := confirmed ≠ [] ∧ s.recording = false
  let recording := if confirmed ≠ [] then true else s.recording
  let writer_open := if opened then true else s.writer_open
  let current_segment_path :=
    if opened then mkSegmentPath inp else s.current_segment_path
  let rec_violations :=
    if confirmed ≠ [] then
      if s.recording then updateRecViolations s.rec_violations confirmed
      else openRecViolations confirmed
    else s.rec_violations
  let closing : Bool := recording &&
    (match last_detection_time with
     | some tld => decide (current_time - tld > cfg.buffer_seconds)
     | none => false)
  if closing then
    { frame_count, sleep_start_time, last_detection_time,
      recording := false, writer_open := false,
      rec_violations, current_segment_path, last_detections,
      last_confirmed_violations := [],
      violations_log := s.violations_log ++
        [{ path := current_segment_path,
           time := fmtClock inp.wall_h inp.wall_m inp.wall_s,
           violation := join_sorted rec_violations,
           student := pendingLabel, confidence := "N/A" }] }
  else
    { frame_count, sleep_start_time, last_detection_time,
      recording, writer_open, rec_violations, current_segment_path,
      last_detections, last_confirmed_violations := last_confirmed,
      violations_log := s.violations_log }

/-- One iteration of the `process_video_url` frame loop (app.py, lines
672-759).  Differences from the file loop: the recording open/extend
logic sits inside the sampled branch (lines 704-720) and, on the open
frame, the separate `if confirmed_violations and recording:` also runs
the update; the close path (lines 736-748) joins `rec_violations`
without sorting and does not reset `last_confirmed_violations`
(`last_recording_end_time` is assigned there but never read, and is not
modelled). -/
def videoUrlStep (cfg : Config) (s : LoopState) (inp : FrameInput) : LoopState :=
  let frame_count := s.frame_count + 1
  let current_time := inp.time
  let sampled := frame_count % cfg.frame_skip = 0
  let det := process_frame_for_detection current_time inp.detections
    s.sleep_start_time cfg.sleep_buffer
  let confirmed : List String := if sampled then det.1 else []
  let sleep_start_time := if sampled then det.2.1 else s.sleep_start_time
  let last_detection_time :=
    if sampled ∧ det.1 ≠ [] ∧ det.2.2 ≠ none then det.2.2
    else s.last_detection_time
  let last_detections := if sampled then inp.detections else s.last_detections
  let last_confirmed := if sampled then det.1 else s.last_confirmed_violations
  let opened := confirmed ≠ [] ∧ s.recording = false
  let recording := if confirmed ≠ [] then true else s.recording
  let writer_open := if opened then true else s.writer_open
  let current_segment_path :=
    if opened then mkSegmentPath inp else s.current_segment_path
  let rec0 := if opened then openRecViolations confirmed else s.rec_violations
  let rec_violations :=
    if confirmed ≠ [] then updateRecViolations rec0 confirmed else rec0
  let closing : Bool := recording &&
    (match last_detection_time with
     | some tld => decide (current_time - tld > cfg.buffer_seconds)
     | none => false)
  if closing then
    { frame_count, sleep_start_time, last_detection_time,
      recording := false, writer_open := false,
      rec_violations, current_segment_path, last_detections,
      last_confirmed_violations := last_confirmed,
      violations_log := s.violations_log ++
        [{ path := current_segment_path,
           time := fmtClock inp.wall_h inp.wall_m inp.wall_s,
           violation := join_unsorted rec_violations,
           student := pendingLabel, confidence := "N/A" }] }
  else
    { frame_count, sleep_start_time, last_detection_time,
      recording, writer_open, rec_violations, current_segment_path,
      last_detections, last_confirmed_violations := last_confirmed,
      violations_log := s.violations_log }

/-- The whole `while` loop of `process_video_file`, from the initial
state. -/
def runVideoFileLoop (cfg : Config) (inputs : List FrameInput) : LoopState :=
  inputs.foldl (videoFileStep cfg) initState

/-- The whole `while` loop of `process_video_url`, from the initial
state. -/
def runVideoUrlLoop (cfg : Config) (inputs : List FrameInput) : LoopState :=
  inputs.foldl (videoUrlStep cfg) initState

/-- The code run when the frame stream ends (app.py, lines 541-543,
identically 361-363 and 761-763): `cap.release()`, then
`if recording: video_processor.stop_recording()`.  Only the writer is
released; the loop-local `recording` flag and the ledger are untouched. -/
def endOfStream (s : LoopState) : LoopState :=
  if s.recording then { s with writer_open := false } else s

/-- `process_video_file` end to end: the frame loop followed by the
end-of-stream handling. -/
def process_video_file (cfg : Config) (inputs : List FrameInput) : LoopState :=
  endOfStream (runVideoFileLoop cfg inputs)

/-- `process_video_url` end to end. -/
def process_video_url (cfg : Config) (inputs : List FrameInput) : LoopState :=
  endOfStream (runVideoUrlLoop cfg inputs)

/-- Models `f"{score:.0%}"`; the exact format is irrelevant to the
attribution claims, only that it is a function of the score. -/
def format_confidence (score : ℚ) : String :=
  toString score

/-- The body of the per-entry `try`/`except` of the attribution loop
(app.py, lines 565-576): on success the matcher's name and score are
written, on a raised error the entry is marked with the analysis-error
terminal value.  The identity matcher is modelled as a function from the
segment path to `Except` of `(display_name, score, face_path)`. -/
def resolveEntry (matcher : String → Except String (String × ℚ × String))
    (v : Violation) : Violation :=
  match matcher v.path with
  | .ok (name, score, _) =>
      { v with student := name, confidence := format_confidence score }
  | .error _ =>
      { v with student := "Не опознан", confidence := "Ошибка анализа" }

/-- What the attribution pass does to a single entry when the database is
available: pending entries go through `resolveEntry`, others are left
alone (only pending indices are in `violations_to_process`). -/
def resolveOne (matcher : String → Except String (String × ℚ × String))
    (v : Violation) : Violation :=
  if v.student = pendingLabel then resolveEntry matcher v else v

/-- In-place update of the `i`-th log entry, as the Python loop's
`st.session_state.violations_log[i][...] = ...` writes. -/
def updateAt (log : List Violation) (i : Nat) (f : Violation → Violation) :
    List Violation :=
  match log[i]? with
  | some v => log.set i (f v)
  | none => log

/-- `violations_to_process = [i for i, v in enumerate(log) if
v['student'] == 'Обработка...']` (app.py, lines 556-559). -/
def violations_to_process (log : List Violation) : List Nat :=
  (List.range log.length).filter fun i =>
    match log[i]? with
    | some v => v.student == pendingLabel
    | none => false

/-- The deferred face-attribution pass (app.py, lines 546-587): if the
log is non-empty and a face database is available, each pending entry is
resolved in ledger order inside a per-entry `try`/`except`; otherwise
every pending entry is marked `"Не опознан"` / `"Нет БД"` with no
matcher call. -/
def analyze_faces (log : List Violation) (available : Bool)
    (matcher : String → Except String (String × ℚ × String)) :
    List Violation :=
  if log.isEmpty then log
  else if available then
    (violations_to_process log).foldl
      (fun lg i => updateAt lg i (resolveEntry matcher)) log
  else
    log.map fun v =>
      if v.student = pendingLabel then
        { v with student := "Не опознан", confidence := "Нет БД" }
      else v

theorem mem_insertClass {x c : String} {l : List String} :
    x ∈ insertClass l c ↔ x ∈ l ∨ x = c := by
  unfold insertClass
  split
  · next h => exact ⟨Or.inl, fun hx => hx.elim id fun e => e ▸ h⟩
  · simp

theorem process_frame_nil (t : ℚ) (st : Option ℚ) (buf : ℚ) :
    process_frame_for_detection t [] st buf = ([], none, none) := by
  simp [process_frame_for_detection]

theorem process_frame_sleepOnly (t : ℚ) (st : Option ℚ) (buf : ℚ) :
    process_frame_for_detection t ["sleeping"] st buf =
      (if t - st.getD t ≥ buf then (["sleeping"], some (st.getD t), some t)
       else ([], some (st.getD t), none)) := by
  by_cases hb : t - st.getD t ≥ buf <;>
    simp [process_frame_for_detection, hb]

theorem confirmed_subset_detections (t : ℚ) (d : List String) (st : Option ℚ)
    (buf : ℚ) : ∀ x ∈ (process_frame_for_detection t d st buf).1, x ∈ d := by
  have base :
      ∀ x ∈ (if "sleeping" ∈ d ∧ t - st.getD t ≥ buf then
          ((["sleeping"] : List String), some t)
        else ([], none)).1, x ∈ d := by
    split
    · next h => simpa using h.1
    · simp
  have fold :
      ∀ (l : List String) (acc : List String × Option ℚ),
        (∀ x ∈ acc.1, x ∈ d) → (∀ c ∈ l, c ∈ d) →
        ∀ x ∈ (l.foldl
            (fun acc c =>
              if c ≠ "sleeping" then (insertClass acc.1 c, some t) else acc)
            acc).1, x ∈ d := by
    intro l
    induction l with
    | nil => intro acc hacc _ x hx; exact hacc x hx
    | cons c cs ih =>
        intro acc hacc hl x hx
        refine ih _ ?_ (fun e he => hl e (List.mem_cons_of_mem _ he)) x hx
        intro y hy
        simp only [ne_eq] at hy
        by_cases hc : c = "sleeping"
        · rw [if_neg (by simp [hc])] at hy
          exact hacc y hy
        · rw [if_pos (by simp [hc])] at hy
          rcases mem_insertClass.1 hy with h | h
          · exact hacc y h
          · exact h ▸ hl c (List.mem_cons_self _ _)
  exact fold d _ base (fun c hc => hc)

theorem sleepTrace_some (buf t0 : ℚ) :
    ∀ (us : List ℚ) (k : Nat), k < us.length →
      ("sleeping" ∈ (filterTrace buf (some t0)
          (us.map (fun u => (u, ["sleeping"])))).getD k []
        ↔ us.getD k 0 - t0 ≥ buf) := by
  intro us
  induction us with
  | nil => intro k hk; simp at hk
  | cons u us ih =>
      intro k hk
      have hstep := process_frame_sleepOnly u (some t0) buf
      match k with
      | 0 =>
          simp only [List.map_cons, filterTrace, hstep, Option.getD_some]
          by_cases hb : u - t0 ≥ buf <;> simp [hb]
      | Nat.succ k =>
          simp only [List.map_cons, filterTrace, hstep, Option.getD_some]
          have hk' : k < us.length := Nat.lt_of_succ_lt_succ hk
          by_cases hb : u - t0 ≥ buf <;>
            simpa [hb] using ih k hk'

theorem sleepTrace_none (buf t0 : ℚ) (ts : List ℚ) (k : Nat)
    (hk : k < (t0 :: ts).length) :
    ("sleeping" ∈ (filterTrace buf none
        ((t0 :: ts).map (fun u => (u, ["sleeping"])))).getD k []
      ↔ (t0 :: ts).getD k 0 - t0 ≥ buf) := by
  have hstep : process_frame_for_detection t0 ["sleeping"] none buf =
      (if buf ≤ 0 then (["sleeping"], some t0, some t0)
       else ([], some t0, none)) := by
    simpa [sub_self] using process_frame_sleepOnly t0 none buf
  match k with
  | 0 =>
      by_cases hb : buf ≤ 0 <;> simp [filterTrace, hstep, hb, sub_self]
  | Nat.succ k =>
      have hk' : k < ts.length := Nat.lt_of_succ_lt_succ hk
      simp only [List.map_cons, filterTrace, hstep]
      by_cases hb : buf ≤ 0 <;>
        simpa [hb] using sleepTrace_some buf t0 ts k hk'

theorem mem_foldl_insertClass (l : List String) :
    ∀ (acc : List String) (x : String),
      x ∈ l.foldl insertClass acc ↔ x ∈ acc ∨ x ∈ l := by
  induction l with
  | nil => simp
  | cons c cs ih =>
      intro acc x
      rw [List.foldl_cons, ih, mem_insertClass]
      simp only [List.mem_cons]
      tauto

theorem mem_updateRecViolations (rec c : List String) (x : String) :
    x ∈ updateRecViolations rec c ↔ x ∈ rec ∨ x ∈ c :=
  mem_foldl_insertClass c rec x

theorem mem_openRecViolations (c : List String) (x : String) :
    x ∈ openRecViolations c ↔ x ∈ c := by
  rw [openRecViolations, mem_foldl_insertClass]
  simp

theorem mem_foldl_updateRecViolations (cs : List (List String)) :
    ∀ (r : List String) (x : String),
      x ∈ cs.foldl updateRecViolations r ↔ x ∈ r ∨ ∃ c ∈ cs, x ∈ c := by
  induction cs with
  | nil => simp
  | cons c cs ih =>
      intro r x
      rw [List.foldl_cons, ih, mem_updateRecViolations]
      simp only [List.mem_cons]
      constructor
      · rintro ((h | h) | ⟨e, he, hx⟩)
        · exact Or.inl h
        · exact Or.inr ⟨c, Or.inl rfl, h⟩
        · exact Or.inr ⟨e, Or.inr he, hx⟩
      · rintro (h | ⟨e, (rfl | he), hx⟩)
        · exact Or.inl (Or.inl h)
        · exact Or.inl (Or.inr hx)
        · exact Or.inr ⟨e, he, hx⟩

/-- C3: over any sequence of sampled frames all containing "sleeping",
starting with a fresh (null) debounce timer, the filter confirms
"sleeping" at frame `k` exactly when the elapsed time since the timer
started (the first frame's time `t0`) has reached `sleep_buffer`, with an
inclusive boundary - hence at the first such frame and never at any
earlier one. -/
theorem claim_C3 (sleep_buffer t0 : ℚ) (ts : List ℚ) (k : Nat)
    (hk : k < (t0 :: ts).length) :
    ("sleeping" ∈ (filterTrace sleep_buffer none
        ((t0 :: ts).map (fun u => (u, ["sleeping"])))).getD k []
      ↔ (t0 :: ts).getD k 0 - t0 ≥ sleep_buffer) :=
  sleepTrace_none sleep_buffer t0 ts k hk

theorem claim_C3_witness :
    (2 < ((1:ℚ) :: [2, 11]).length) ∧
    ("sleeping" ∈ (filterTrace 10 none
        (((1:ℚ) :: [2, 11]).map (fun u => (u, ["sleeping"])))).getD 2 []
      ↔ ((1:ℚ) :: [2, 11]).getD 2 0 - 1 ≥ 10) :=
  ⟨by decide, claim_C3 10 1 [2, 11] 2 (by decide)⟩

/-- C4: a sampled frame without "sleeping" resets the debounce timer to
null, and a subsequent uninterrupted run of "sleeping" frames starting at
time `u0` confirms at frame `k` exactly when `u_k - u0 ≥ sleep_buffer`:
the debounce restarts from zero after the gap. -/
theorem claim_C4 (sleep_buffer t : ℚ) (d : List String) (st : Option ℚ)
    (hgap : "sleeping" ∉ d) (u0 : ℚ) (us : List ℚ) (k : Nat)
    (hk : k < (u0 :: us).length) :
    (process_frame_for_detection t d st sleep_buffer).2.1 = none ∧
    ("sleeping" ∈ (filterTrace sleep_buffer
        (process_frame_for_detection t d st sleep_buffer).2.1
        ((u0 :: us).map (fun u => (u, ["sleeping"])))).getD k []
      ↔ (u0 :: us).getD k 0 - u0 ≥ sleep_buffer) := by
  have hreset : (process_frame_for_detection t d st sleep_buffer).2.1 = none := by
    simp [process_frame_for_detection, hgap]
  exact ⟨hreset, by rw [hreset]; exact sleepTrace_none sleep_buffer u0 us k hk⟩

theorem claim_C4_witness :
    ("sleeping" ∉ (["phone"] : List String)) ∧ (1 < ((20:ℚ) :: [30]).length) ∧
    ((process_frame_for_detection 15 ["phone"] (some 3) 10).2.1 = none ∧
     ("sleeping" ∈ (filterTrace 10
        (process_frame_for_detection 15 ["phone"] (some 3) 10).2.1
        (((20:ℚ) :: [30]).map (fun u => (u, ["sleeping"])))).getD 1 []
       ↔ ((20:ℚ) :: [30]).getD 1 0 - 20 ≥ 10)) :=
  ⟨by decide, by decide,
    claim_C4 10 15 ["phone"] (some 3) (by decide) 20 [30] 1 (by decide)⟩

/-- C5: the accumulated violation set of a segment - built by
`openRecViolations` at open and `updateRecViolations` on each later
confirmation, exactly as `videoFileStep` does - contains precisely the
classes occurring in some confirmed set observed between open and close,
and as a set it is invariant under permuting the order in which the
confirmed sets arrived. -/
theorem claim_C5 (c0 : List String) (cs : List (List String)) :
    (∀ x, x ∈ cs.foldl updateRecViolations (openRecViolations c0)
        ↔ ∃ c ∈ c0 :: cs, x ∈ c) ∧
    (∀ (d0 : List String) (ds : List (List String)),
      (c0 :: cs).Perm (d0 :: ds) →
      (cs.foldl updateRecViolations (openRecViolations c0)).toFinset
        = (ds.foldl updateRecViolations (openRecViolations d0)).toFinset) := by
  have char : ∀ (e0 : List String) (es : List (List String)) (x : String),
      x ∈ es.foldl updateRecViolations (openRecViolations e0)
        ↔ ∃ c ∈ e0 :: es, x ∈ c := by
    intro e0 es x
    rw [mem_foldl_updateRecViolations, mem_openRecViolations]
    simp only [List.mem_cons]
    constructor
    · rintro (h | ⟨c, hc, hx⟩)
      · exact ⟨e0, Or.inl rfl, h⟩
      · exact ⟨c, Or.inr hc, hx⟩
    · rintro ⟨c, (rfl | hc), hx⟩
      · exact Or.inl hx
      · exact Or.inr ⟨c, hc, hx⟩
  refine ⟨char c0 cs, ?_⟩
  intro d0 ds hp
  ext x
  simp only [List.mem_toFinset]
  rw [char c0 cs, char d0 ds]
  exact exists_congr fun c => and_congr_left fun _ => hp.mem_iff

theorem claim_C5_witness :
    ((["phone"] : List String) :: [["bottle"]]).Perm (["bottle"] :: [["phone"]]) ∧
    ([["bottle"]].foldl updateRecViolations (openRecViolations ["phone"])).toFinset
      = ([["phone"]].foldl updateRecViolations (openRecViolations ["bottle"])).toFinset :=
  ⟨by decide, (claim_C5 ["phone"] [["bottle"]]).2 ["bottle"] [["phone"]] (by decide)⟩

/-- C10: the confirmed set returned by `process_frame_for_detection` only
contains classes present in the raw detections of that call, and an empty
raw detection map yields an empty confirmed set. -/
theorem claim_C10 (t : ℚ) (d : List String) (st : Option ℚ) (buf : ℚ) :
    (∀ x ∈ (process_frame_for_detection t d st buf).1, x ∈ d) ∧
    (process_frame_for_detection t [] st buf).1 = [] :=
  ⟨confirmed_subset_detections t d st buf, by rw [process_frame_nil]⟩

theorem claim_C10_witness :
    ("phone" ∈ (process_frame_for_detection 5 ["phone"] none 10).1) ∧
    ("phone" ∈ (["phone"] : List String)) :=
  ⟨by with_unfolding_all decide,
   (claim_C10 5 ["phone"] none 10).1 "phone" (by with_unfolding_all decide)⟩

theorem videoFileStep_empty_noClose (cfg : Config) (s : LoopState)
    (inp : FrameInput) (tl : ℚ)
    (hrec : s.recording = true) (hlast : s.last_detection_time = some tl)
    (hdet : inp.detections = []) (hle : inp.time ≤ tl + cfg.buffer_seconds) :
    (videoFileStep cfg s inp).recording = true ∧
    (videoFileStep cfg s inp).last_detection_time = some tl ∧
    (videoFileStep cfg s inp).violations_log = s.violations_log ∧
    (videoFileStep cfg s inp).rec_violations = s.rec_violations ∧
    (videoFileStep cfg s inp).current_segment_path = s.current_segment_path := by
  have hdet' : process_frame_for_detection inp.time inp.detections
      s.sleep_start_time cfg.sleep_buffer = ([], none, none) := by
    rw [hdet]; exact process_frame_nil _ _ _
  have hnotgt : ¬ (inp.time - tl > cfg.buffer_seconds) := by
    rw [not_lt, sub_le_iff_le_add, add_comm]
    exact hle
  simp [videoFileStep, hdet', hrec, hlast, hnotgt, ite_self]

theorem videoFileStep_empty_close (cfg : Config) (s : LoopState)
    (inp : FrameInput) (tl : ℚ)
    (hrec : s.recording = true) (hlast : s.last_detection_time = some tl)
    (hdet : inp.detections = []) (hgt : tl + cfg.buffer_seconds < inp.time) :
    (videoFileStep cfg s inp).recording = false ∧
    (videoFileStep cfg s inp).writer_open = false ∧
    (videoFileStep cfg s inp).violations_log = s.violations_log ++
      [{ path := s.current_segment_path,
         time := fmtClock inp.wall_h inp.wall_m inp.wall_s,
         violation := join_sorted s.rec_violations,
         student := pendingLabel, confidence := "N/A" }] := by
  have hdet' : process_frame_for_detection inp.time inp.detections
      s.sleep_start_time cfg.sleep_buffer = ([], none, none) := by
    rw [hdet]; exact process_frame_nil _ _ _
  have hgt' : inp.time - tl > cfg.buffer_seconds := by
    rw [gt_iff_lt, lt_sub_iff_add_lt, add_comm]
    exact hgt
  simp [videoFileStep, hdet', hrec, hlast, hgt', ite_self]

theorem runGapFrames (cfg : Config) (tl : ℚ) :
    ∀ (gaps : List FrameInput) (s : LoopState),
      s.recording = true → s.last_detection_time = some tl →
      (∀ i ∈ gaps, i.detections = []) →
      (∀ i ∈ gaps, i.time ≤ tl + cfg.buffer_seconds) →
      (gaps.foldl (videoFileStep cfg) s).recording = true ∧
      (gaps.foldl (videoFileStep cfg) s).last_detection_time = some tl ∧
      (gaps.foldl (videoFileStep cfg) s).violations_log = s.violations_log ∧
      (gaps.foldl (videoFileStep cfg) s).rec_violations = s.rec_violations ∧
      (gaps.foldl (videoFileStep cfg) s).current_segment_path
        = s.current_segment_path := by
  intro gaps
  induction gaps with
  | nil => intro s h1 h2 _ _; exact ⟨h1, h2, rfl, rfl, rfl⟩
  | cons g gs ih =>
      intro s h1 h2 hdet hle
      have hstep := videoFileStep_empty_noClose cfg s g tl h1 h2
        (hdet g (List.mem_cons_self _ _)) (hle g (List.mem_cons_self _ _))
      have ihres := ih (videoFileStep cfg s g) hstep.1 hstep.2.1
        (fun i hi => hdet i (List.mem_cons_of_mem _ hi))
        (fun i hi => hle i (List.mem_cons_of_mem _ hi))
      rw [List.foldl_cons]
      exact ⟨ihres.1, ihres.2.1,
        ihres.2.2.1.trans hstep.2.2.1,
        ihres.2.2.2.1.trans hstep.2.2.2.1,
        ihres.2.2.2.2.trans hstep.2.2.2.2⟩

/-- C2 (amended): with the last confirmation at time `tl`, the open
segment survives every further confirmation-free frame whose time is at
most `tl + buffer_seconds` - in particular a frame at exactly
`tl + buffer_seconds` does not close it, since the code's close test is
the strict `now - last_detection_time > buffer_seconds` - and the first
confirmation-free frame strictly past `tl + buffer_seconds` closes it,
emitting exactly one ledger entry for the segment. -/
theorem claim_C2 (cfg : Config) (s : LoopState) (tl : ℚ)
    (gaps : List FrameInput) (fin : FrameInput)
    (hrec : s.recording = true) (hlast : s.last_detection_time = some tl)
    (hgapdet : ∀ i ∈ gaps, i.detections = [])
    (hgaple : ∀ i ∈ gaps, i.time ≤ tl + cfg.buffer_seconds)
    (hfindet : fin.detections = [])
    (hfingt : tl + cfg.buffer_seconds < fin.time) :
    ((gaps.foldl (videoFileStep cfg) s).recording = true ∧
     (gaps.foldl (videoFileStep cfg) s).violations_log = s.violations_log) ∧
    ((videoFileStep cfg (gaps.foldl (videoFileStep cfg) s) fin).recording = false ∧
     (videoFileStep cfg (gaps.foldl (videoFileStep cfg) s) fin).violations_log
       = s.violations_log ++
         [{ path := s.current_segment_path,
            time := fmtClock fin.wall_h fin.wall_m fin.wall_s,
            violation := join_sorted s.rec_violations,
            student := pendingLabel, confidence := "N/A" }]) := by
  have hrun := runGapFrames cfg tl gaps s hrec hlast hgapdet hgaple
  have hclose := videoFileStep_empty_close cfg (gaps.foldl (videoFileStep cfg) s)
    fin tl hrun.1 hrun.2.1 hfindet hfingt
  refine ⟨⟨hrun.1, hrun.2.2.1⟩, hclose.1, ?_⟩
  rw [hclose.2.2, hrun.2.2.1, hrun.2.2.2.1, hrun.2.2.2.2]

theorem claim_C2_witness :
    ((({ frame_count := 3, sleep_start_time := none,
         last_detection_time := some 1, recording := true, writer_open := true,
         rec_violations := ["phone"], current_segment_path := "p",
         last_detections := ["phone"], last_confirmed_violations := ["phone"],
         violations_log := [] } : LoopState)).recording = true) ∧
    (([({ time := 5, detections := [], wall_h := 0, wall_m := 0, wall_s := 5,
          wall_date := "d" } : FrameInput)].foldl
        (videoFileStep ⟨1, 10, 10⟩)
        { frame_count := 3, sleep_start_time := none,
          last_detection_time := some 1, recording := true, writer_open := true,
          rec_violations := ["phone"], current_segment_path := "p",
          last_detections := ["phone"], last_confirmed_violations := ["phone"],
          violations_log := [] }).recording = true) ∧
    ((videoFileStep ⟨1, 10, 10⟩
        ([({ time := 5, detections := [], wall_h := 0, wall_m := 0, wall_s := 5,
             wall_date := "d" } : FrameInput)].foldl
          (videoFileStep ⟨1, 10, 10⟩)
          { frame_count := 3, sleep_start_time := none,
            last_detection_time := some 1, recording := true, writer_open := true,
            rec_violations := ["phone"], current_segment_path := "p",
            last_detections := ["phone"], last_confirmed_violations := ["phone"],
            violations_log := [] })
        { time := 12, detections := [], wall_h := 0, wall_m := 0, wall_s := 12,
          wall_date := "d" }).violations_log
      = [{ path := "p", time := fmtClock 0 0 12,
           violation := join_sorted ["phone"],
           student := pendingLabel, confidence := "N/A" }]) := by
  have h := claim_C2 ⟨1, 10, 10⟩
    { frame_count := 3, sleep_start_time := none,
      last_detection_time := some 1, recording := true, writer_open := true,
      rec_violations := ["phone"], current_segment_path := "p",
      last_detections := ["phone"], last_confirmed_violations := ["phone"],
      violations_log := [] } 1
    [{ time := 5, detections := [], wall_h := 0, wall_m := 0, wall_s := 5,
       wall_date := "d" }]
    { time := 12, detections := [], wall_h := 0, wall_m := 0, wall_s := 12,
      wall_date := "d" }
    rfl rfl (by decide)
    (by intro i hi; simp at hi; subst hi; with_unfolding_all decide)
    rfl (by with_unfolding_all decide)
  exact ⟨rfl, h.1.1, by rw [h.2.2]; rfl⟩

/-- C2 counterexample to the claim as stated: buffer 10, last (and only)
confirmation at `t = 1`; at the frame processed at exactly
`t = 11 = 1 + buffer_seconds` the segment has not closed - recording is
still on and no ledger entry has been emitted - because the code closes
only on the strict inequality `now - last_detection_time > buffer`. -/
theorem claim_C2_counterexample :
    ((11:ℚ) = 1 + (⟨1, 10, 10⟩ : Config).buffer_seconds) ∧
    (runVideoFileLoop ⟨1, 10, 10⟩
        [⟨1, ["phone"], 9, 0, 1, "d"⟩, ⟨11, [], 9, 0, 11, "d"⟩]).last_detection_time
      = some 1 ∧
    (runVideoFileLoop ⟨1, 10, 10⟩
        [⟨1, ["phone"], 9, 0, 1, "d"⟩, ⟨11, [], 9, 0, 11, "d"⟩]).recording
      = true ∧
    (runVideoFileLoop ⟨1, 10, 10⟩
        [⟨1, ["phone"], 9, 0, 1, "d"⟩, ⟨11, [], 9, 0, 11, "d"⟩]).violations_log
      = [] := by
  refine ⟨by with_unfolding_all decide, ?_, ?_, ?_⟩ <;> with_unfolding_all decide

/-- C1: evaluation at the failing input.  A one-frame stream (skip 1,
buffer 10) whose single frame at `t = 1` carries a confirmed "phone"
detection opens a segment; the stream then ends while recording.  The
end-of-stream code (app.py, lines 541-543) releases the writer but never
appends a ledger entry - `endOfStream` leaves `violations_log` untouched
for every state - so the run finishes with an open segment force-closed
and zero ledger entries, not exactly one. -/
theorem claim_C1 :
    (∀ s : LoopState, (endOfStream s).violations_log = s.violations_log) ∧
    (runVideoFileLoop ⟨1, 10, 10⟩
        [⟨1, ["phone"], 9, 0, 1, "2026-01-01"⟩]).recording = true ∧
    (process_video_file ⟨1, 10, 10⟩
        [⟨1, ["phone"], 9, 0, 1, "2026-01-01"⟩]).writer_open = false ∧
    (process_video_file ⟨1, 10, 10⟩
        [⟨1, ["phone"], 9, 0, 1, "2026-01-01"⟩]).violations_log = [] := by
  refine ⟨fun s => ?_, ?_, ?_, ?_⟩
  · unfold endOfStream; split <;> rfl
  · with_unfolding_all decide
  · with_unfolding_all decide
  · with_unfolding_all decide

/-- C6 (amended, the part that holds): the sorted renderer used by the
file and webcam close paths is deterministic - two accumulated sets with
the same members (as `rec_violations` always is: duplicate-free) render
to the identical string, and the rendered order is sorted. -/
theorem claim_C6 (rec1 rec2 : List String) (h1 : rec1.Nodup) (h2 : rec2.Nodup)
    (hset : rec1.toFinset = rec2.toFinset) :
    join_sorted rec1 = join_sorted rec2 ∧
    List.Sorted (· ≤ ·) (sortStrings rec1) := by
  have hmem : ∀ a, a ∈ rec1 ↔ a ∈ rec2 := by
    intro a; rw [← List.mem_toFinset, hset, List.mem_toFinset]
  have hperm : rec1.Perm rec2 := (List.perm_ext_iff_of_nodup h1 h2).2 hmem
  have hs1 : List.Sorted (· ≤ ·) (sortStrings rec1) :=
    List.sorted_insertionSort _ _
  have hs2 : List.Sorted (· ≤ ·) (sortStrings rec2) :=
    List.sorted_insertionSort _ _
  have hsort : sortStrings rec1 = sortStrings rec2 :=
    List.eq_of_perm_of_sorted
      (((List.perm_insertionSort _ rec1).trans hperm).trans
        (List.perm_insertionSort _ rec2).symm) hs1 hs2
  exact ⟨by rw [join_sorted, join_sorted, hsort], hs1⟩

theorem claim_C6_witness :
    (["phone", "bottle"] : List String).Nodup ∧
    (["bottle", "phone"] : List String).Nodup ∧
    (["phone", "bottle"] : List String).toFinset
      = (["bottle", "phone"] : List String).toFinset ∧
    (join_sorted ["phone", "bottle"] = join_sorted ["bottle", "phone"] ∧
     List.Sorted (· ≤ ·) (sortStrings ["phone", "bottle"])) :=
  ⟨by decide, by decide, by decide,
   claim_C6 ["phone", "bottle"] ["bottle", "phone"]
     (by decide) (by decide) (by decide)⟩

/-- C6 counterexample to the claim as stated: the URL stream handler's
close path (app.py, line 745) joins `rec_violations` without sorting.
Two URL-loop runs accumulating the same set of classes, in different
orders, emit different `violation` strings. -/
theorem claim_C6_counterexample :
    ((runVideoUrlLoop ⟨1, 2, 10⟩
        [⟨1, ["phone"], 0, 0, 1, "d"⟩, ⟨2, ["bottle"], 0, 0, 2, "d"⟩,
         ⟨5, [], 0, 0, 5, "d"⟩]).rec_violations.toFinset
      = (runVideoUrlLoop ⟨1, 2, 10⟩
        [⟨1, ["bottle"], 0, 0, 1, "d"⟩, ⟨2, ["phone"], 0, 0, 2, "d"⟩,
         ⟨5, [], 0, 0, 5, "d"⟩]).rec_violations.toFinset) ∧
    ((runVideoUrlLoop ⟨1, 2, 10⟩
        [⟨1, ["phone"], 0, 0, 1, "d"⟩, ⟨2, ["bottle"], 0, 0, 2, "d"⟩,
         ⟨5, [], 0, 0, 5, "d"⟩]).violations_log.map Violation.violation
      = ["phone, bottle"]) ∧
    ((runVideoUrlLoop ⟨1, 2, 10⟩
        [⟨1, ["bottle"], 0, 0, 1, "d"⟩, ⟨2, ["phone"], 0, 0, 2, "d"⟩,
         ⟨5, [], 0, 0, 5, "d"⟩]).violations_log.map Violation.violation
      = ["bottle, phone"]) ∧
    ("phone, bottle" ≠ "bottle, phone") := by
  refine ⟨?_, ?_, ?_, ?_⟩ <;> with_unfolding_all decide

theorem digitChar_injOn :
    ∀ a, a < 10 → ∀ b, b < 10 → Nat.digitChar a = Nat.digitChar b → a = b := by
  decide

theorem data_fmt2 (n : Nat) :
    (fmt2 n).data = [Nat.digitChar (n / 10), Nat.digitChar (n % 10)] := rfl

theorem fmt2_inj {a b : Nat} (ha : a < 100) (hb : b < 100)
    (e1 : Nat.digitChar (a / 10) = Nat.digitChar (b / 10))
    (e2 : Nat.digitChar (a % 10) = Nat.digitChar (b % 10)) : a = b := by
  have d1 : a / 10 = b / 10 :=
    digitChar_injOn _ (Nat.div_lt_of_lt_mul (by omega)) _
      (Nat.div_lt_of_lt_mul (by omega)) e1
  have d2 : a % 10 = b % 10 :=
    digitChar_injOn _ (Nat.mod_lt _ (by omega)) _ (Nat.mod_lt _ (by omega)) e2
  omega

/-- C7 (amended, the uniqueness that does hold): the generated segment
filename is determined by, and determines, the wall-clock time of day at
second resolution - distinct seconds give distinct filenames, and two
opens within the same second give the identical filename (there is no
disambiguator). -/
theorem claim_C7 (h1 m1 s1 h2 m2 s2 : Nat)
    (hh1 : h1 < 100) (hm1 : m1 < 100) (hs1 : s1 < 100)
    (hh2 : h2 < 100) (hm2 : m2 < 100) (hs2 : s2 < 100) :
    generate_segment_filename h1 m1 s1 = generate_segment_filename h2 m2 s2
      ↔ (h1 = h2 ∧ m1 = m2 ∧ s1 = s2) := by
  constructor
  · intro h
    have hdata := congrArg String.data h
    simp only [generate_segment_filename, String.data_append, data_fmt2,
      List.append_assoc, List.cons_append, List.nil_append,
      List.append_cancel_left_eq, List.cons.injEq, and_true, true_and] at hdata
    obtain ⟨e1, e2, e3, e4, e5, e6⟩ := hdata
    exact ⟨fmt2_inj hh1 hh2 e1 e2, fmt2_inj hm1 hm2 e3 e4,
      fmt2_inj hs1 hs2 e5 e6⟩
  · rintro ⟨rfl, rfl, rfl⟩; rfl

theorem claim_C7_witness :
    ((9:Nat) < 100 ∧ (5:Nat) < 100 ∧ (7:Nat) < 100 ∧ (9:Nat) < 100 ∧
      (5:Nat) < 100 ∧ (8:Nat) < 100) ∧
    (generate_segment_filename 9 5 7 = generate_segment_filename 9 5 8
      ↔ ((9:Nat) = 9 ∧ (5:Nat) = 5 ∧ (7:Nat) = 8)) :=
  ⟨by decide,
   claim_C7 9 5 7 9 5 8 (by decide) (by decide) (by decide) (by decide)
     (by decide) (by decide)⟩

/-- C7 counterexample to the claim as stated: with a small (spec-valid,
positive) trailing buffer, a segment opened in wall-clock second
`00:00:01`, closed `0.3 s` later, and a second segment opened in the same
wall-clock second are both assigned the very same output path, because
the filename has only second resolution and no disambiguator: the run's
final open segment path equals the path already recorded in the ledger
entry of the first segment. -/
theorem claim_C7_counterexample :
    ((runVideoFileLoop ⟨1, 1/5, 10⟩
        [⟨1, ["phone"], 0, 0, 1, "2026-01-01"⟩,
         ⟨13/10, [], 0, 0, 1, "2026-01-01"⟩,
         ⟨3/2, ["phone"], 0, 0, 1, "2026-01-01"⟩]).recording = true) ∧
    ((runVideoFileLoop ⟨1, 1/5, 10⟩
        [⟨1, ["phone"], 0, 0, 1, "2026-01-01"⟩,
         ⟨13/10, [], 0, 0, 1, "2026-01-01"⟩,
         ⟨3/2, ["phone"], 0, 0, 1, "2026-01-01"⟩]).violations_log.map
        Violation.path
      = [(runVideoFileLoop ⟨1, 1/5, 10⟩
          [⟨1, ["phone"], 0, 0, 1, "2026-01-01"⟩,
           ⟨13/10, [], 0, 0, 1, "2026-01-01"⟩,
           ⟨3/2, ["phone"], 0, 0, 1, "2026-01-01"⟩]).current_segment_path]) ∧
    ((runVideoFileLoop ⟨1, 1/5, 10⟩
        [⟨1, ["phone"], 0, 0, 1, "2026-01-01"⟩,
         ⟨13/10, [], 0, 0, 1, "2026-01-01"⟩,
         ⟨3/2, ["phone"], 0, 0, 1, "2026-01-01"⟩]).current_segment_path
      = "monitor_output/segments/2026-01-01/seg_00-00-01.mp4") := by
  refine ⟨?_, ?_, ?_⟩ <;> with_unfolding_all decide

theorem getElem?_updateAt (log : List Violation) (i : Nat)
    (f : Violation → Violation) (j : Nat) :
    (updateAt log i f)[j]? = if j = i then (log[i]?).map f else log[j]? := by
  unfold updateAt
  cases hgi : log[i]? with
  | none =>
      by_cases hji : j = i
      · subst hji; simp [hgi]
      · simp [hji]
  | some v =>
      by_cases hji : j = i
      · subst hji
        have hi : j < log.length := by
          rcases List.getElem?_eq_some_iff.1 hgi with ⟨h, _⟩
          exact h
        simp [hgi, List.getElem?_set_self hi]
      · rw [if_neg hji]
        exact List.getElem?_set_ne fun h => hji h.symm

theorem foldl_updateAt_getElem?
    (matcher : String → Except String (String × ℚ × String)) (is : List Nat) :
    ∀ (lg : List Violation), is.Nodup → ∀ j : Nat,
      (is.foldl (fun l i => updateAt l i (resolveEntry matcher)) lg)[j]?
        = if j ∈ is then (lg[j]?).map (resolveEntry matcher) else lg[j]? := by
  induction is with
  | nil => simp
  | cons i is ih =>
      intro lg hnd j
      obtain ⟨hi_not, hnd'⟩ := List.nodup_cons.1 hnd
      rw [List.foldl_cons, ih _ hnd' j]
      by_cases hj : j ∈ is
      · have hji : j ≠ i := fun e => hi_not (e ▸ hj)
        rw [if_pos hj, if_pos (List.mem_cons_of_mem _ hj),
          getElem?_updateAt, if_neg hji]
      · by_cases hji : j = i
        · subst hji
          rw [if_neg hj, if_pos (List.mem_cons_self _ _),
            getElem?_updateAt, if_pos rfl]
        · rw [if_neg hj, if_neg (by simp [hji, hj]), getElem?_updateAt,
            if_neg hji]

theorem mem_violations_to_process (log : List Violation) (j : Nat) :
    j ∈ violations_to_process log ↔
      ∃ v, log[j]? = some v ∧ v.student = pendingLabel := by
  unfold violations_to_process
  rw [List.mem_filter, List.mem_range]
  cases hgj : log[j]? with
  | none => simp [hgj]
  | some v =>
      have hj : j < log.length := by
        rcases List.getElem?_eq_some_iff.1 hgj with ⟨h, _⟩
        exact h
      simp only [hgj, beq_iff_eq]
      constructor
      · rintro ⟨-, h⟩; exact ⟨v, rfl, by simpa using h⟩
      · rintro ⟨w, hw, hpend⟩
        obtain rfl : v = w := by simpa using hw
        exact ⟨hj, by simpa using hpend⟩

theorem nodup_violations_to_process (log : List Violation) :
    (violations_to_process log).Nodup :=
  (List.nodup_range _).filter _

theorem analyze_faces_available_getElem? (log : List Violation)
    (matcher : String → Except String (String × ℚ × String)) (j : Nat) :
    (analyze_faces log true matcher)[j]? = (log[j]?).map (resolveOne matcher) := by
  unfold analyze_faces
  by_cases hemp : log.isEmpty
  · obtain rfl : log = [] := List.isEmpty_iff.1 hemp
    simp
  · rw [if_neg hemp, if_pos rfl,
      foldl_updateAt_getElem? matcher _ log (nodup_violations_to_process log) j]
    by_cases hj : j ∈ violations_to_process log
    · rw [if_pos hj]
      rcases (mem_violations_to_process log j).1 hj with ⟨v, hv, hpend⟩
      rw [hv]
      simp [resolveOne, hpend]
    · rw [if_neg hj]
      cases hgj : log[j]? with
      | none => simp
      | some v =>
          have hnp : ¬ v.student = pendingLabel := fun hp =>
            hj ((mem_violations_to_process log j).2 ⟨v, hgj, hp⟩)
          simp [resolveOne, hnp]

/-- C8: during the attribution pass with an available database, a matcher
failure (a raised exception) on the pending entry at index `k` marks that
entry "Не опознан" / "Ошибка анализа", and every other index still
receives exactly its own, untouched resolution (pending entries go
through the matcher, non-pending entries are left alone): the failure at
`k` neither alters any entry `≠ k` nor aborts the remaining backlog. -/
theorem claim_C8 (log : List Violation)
    (matcher : String → Except String (String × ℚ × String)) (k : Nat)
    (v : Violation) (e : String)
    (hk : log[k]? = some v) (hpend : v.student = pendingLabel)
    (herr : matcher v.path = .error e) :
    (analyze_faces log true matcher)[k]?
      = some { v with student := "Не опознан", confidence := "Ошибка анализа" } ∧
    ∀ j : Nat, j ≠ k → (analyze_faces log true matcher)[j]?
      = (log[j]?).map (resolveOne matcher) := by
  constructor
  · rw [analyze_faces_available_getElem?, hk]
    simp [resolveOne, resolveEntry, hpend, herr]
  · intro j _
    exact analyze_faces_available_getElem? log matcher j

theorem claim_C8_witness :
    (([⟨"a", "09:00:00", "phone", pendingLabel, "N/A"⟩,
       ⟨"b", "09:00:05", "food", pendingLabel, "N/A"⟩] :
        List Violation)[0]?
      = some ⟨"a", "09:00:00", "phone", pendingLabel, "N/A"⟩) ∧
    ((⟨"a", "09:00:00", "phone", pendingLabel, "N/A"⟩ : Violation).student
      = pendingLabel) ∧
    ((fun p => if p = "a" then Except.error "boom"
               else Except.ok ("Ivan", (1:ℚ), "f"))
        (⟨"a", "09:00:00", "phone", pendingLabel, "N/A"⟩ : Violation).path
      = Except.error "boom") ∧
    ((analyze_faces
        [⟨"a", "09:00:00", "phone", pendingLabel, "N/A"⟩,
         ⟨"b", "09:00:05", "food", pendingLabel, "N/A"⟩] true
        (fun p => if p = "a" then Except.error "boom"
                  else Except.ok ("Ivan", (1:ℚ), "f")))[0]?
      = some ⟨"a", "09:00:00", "phone", "Не опознан", "Ошибка анализа"⟩ ∧
     ∀ j : Nat, j ≠ 0 →
      (analyze_faces
        [⟨"a", "09:00:00", "phone", pendingLabel, "N/A"⟩,
         ⟨"b", "09:00:05", "food", pendingLabel, "N/A"⟩] true
        (fun p => if p = "a" then Except.error "boom"
                  else Except.ok ("Ivan", (1:ℚ), "f")))[j]?
        = (([⟨"a", "09:00:00", "phone", pendingLabel, "N/A"⟩,
             ⟨"b", "09:00:05", "food", pendingLabel, "N/A"⟩] :
              List Violation)[j]?).map
            (resolveOne (fun p => if p = "a" then Except.error "boom"
                  else Except.ok ("Ivan", (1:ℚ), "f")))) :=
  ⟨rfl, rfl, rfl,
   claim_C8
     [⟨"a", "09:00:00", "phone", pendingLabel, "N/A"⟩,
      ⟨"b", "09:00:05", "food", pendingLabel, "N/A"⟩]
     (fun p => if p = "a" then Except.error "boom"
               else Except.ok ("Ivan", (1:ℚ), "f"))
     0 ⟨"a", "09:00:00", "phone", pendingLabel, "N/A"⟩ "boom"
     rfl rfl rfl⟩

/-- C9: when the collaborator reports that no identity database is
available, the pass is independent of the matcher (no per-entry call can
influence it), leaves no entry pending, marks every pending entry
"Не опознан" / "Нет БД", and leaves every non-pending entry unchanged. -/
theorem claim_C9 (log : List Violation)
    (m1 m2 : String → Except String (String × ℚ × String)) :
    analyze_faces log false m1 = analyze_faces log false m2 ∧
    (∀ v ∈ analyze_faces log false m1, v.student ≠ pendingLabel) ∧
    (∀ (j : Nat) (v : Violation), log[j]? = some v →
      v.student = pendingLabel →
      (analyze_faces log false m1)[j]?
        = some { v with student := "Не опознан", confidence := "Нет БД" }) ∧
    (∀ (j : Nat) (v : Violation), log[j]? = some v →
      v.student ≠ pendingLabel →
      (analyze_faces log false m1)[j]? = some v) := by
  refine ⟨?_, ?_, ?_, ?_⟩
  · by_cases hemp : log.isEmpty <;> simp [analyze_faces, hemp]
  · intro v hv
    by_cases hemp : log.isEmpty
    · obtain rfl : log = [] := List.isEmpty_iff.1 hemp
      simp [analyze_faces] at hv
    · simp only [analyze_faces, hemp, if_false, Bool.false_eq_true,
        List.mem_map] at hv
      rcases hv with ⟨w, -, rfl⟩
      by_cases hw : w.student = pendingLabel
      · rw [if_pos hw]
        simp only [pendingLabel]
        decide
      · rw [if_neg hw]
        exact hw
  · intro j v hj hpend
    have hemp : ¬ log.isEmpty := by
      rcases List.getElem?_eq_some_iff.1 hj with ⟨h, _⟩
      have hne : log ≠ [] :=
        List.ne_nil_of_length_pos (Nat.lt_of_le_of_lt (Nat.zero_le _) h)
      simpa [List.isEmpty_iff] using hne
    simp only [analyze_faces, hemp, if_false, Bool.false_eq_true,
      List.getElem?_map, hj, Option.map_some]
    simp [hpend]
  · intro j v hj hpend
    have hemp : ¬ log.isEmpty := by
      rcases List.getElem?_eq_some_iff.1 hj with ⟨h, _⟩
      have hne : log ≠ [] :=
        List.ne_nil_of_length_pos (Nat.lt_of_le_of_lt (Nat.zero_le _) h)
      simpa [List.isEmpty_iff] using hne
    simp only [analyze_faces, hemp, if_false, Bool.false_eq_true,
      List.getElem?_map, hj, Option.map_some]
    simp [hpend]

theorem claim_C9_witness :
    (([⟨"a", "09:00:00", "phone", pendingLabel, "N/A"⟩,
       ⟨"b", "09:00:05", "food", "Ivan", "80%"⟩] : List Violation)[0]?
      = some ⟨"a", "09:00:00", "phone", pendingLabel, "N/A"⟩) ∧
    ((⟨"a", "09:00:00", "phone", pendingLabel, "N/A"⟩ : Violation).student
      = pendingLabel) ∧
    ((analyze_faces
        [⟨"a", "09:00:00", "phone", pendingLabel, "N/A"⟩,
         ⟨"b", "09:00:05", "food", "Ivan", "80%"⟩] false
        (fun _ => Except.error "unused"))[0]?
      = some ⟨"a", "09:00:00", "phone", "Не опознан", "Нет БД"⟩) :=
  ⟨rfl, rfl,
   (claim_C9
     [⟨"a", "09:00:00", "phone", pendingLabel, "N/A"⟩,
      ⟨"b", "09:00:05", "food", "Ivan", "80%"⟩]
     (fun _ => Except.error "unused")
     (fun _ => Except.error "unused")).2.2.1 0
     ⟨"a", "09:00:00", "phone", pendingLabel, "N/A"⟩ rfl rfl⟩
